import Mathlib

/-!
Verification of the semaphore flow orchestration runtime.

This development shallowly embeds the parts of the code base that the
checked properties are about:

* `pkg/providers/hcl/errors.go` — `DefaultOnError`, `MergeOnError`,
  `ResolveErrors` (error object inheritance);
* `pkg/checks` — `FlowDuplicates`, `NodeDuplicates`, `ReservedKeywords`
  (manifest validation);
* the gRPC listener — `Listener.Handle` and `Listener.handler`
  (routing table replacement and request dispatch);
* the `constructor` package — `FlowManager`, `NewServiceCall`, `Call`,
  `Request`, `Forward` and `Listeners` (bootstrap of flow managers).

Go pointer mutation is rendered as explicit state passing; fallible Go
functions returning `(T, error)` become `Except`-valued Lean functions.
`Clone` on pure specification data is the identity and is therefore
dropped.  Types of the `specs` package (Property, ParameterMap, OnError,
Flow, Node) are not part of the provided sources; they are modelled from
the specification's data-model section.
-/

namespace Semaphore

/-! ## Data model

Modelled from the spec: a Property is the universal typed value node with
a type, a label, an optional default, an optional `(resource, path)`
reference and nested properties; a ParameterMap is a property tree plus a
header; an ErrorObject (`OnError`) is `(status, message, params,
response)`. -/

inductive PType where
  | bool
  | int32
  | int64
  | uint32
  | uint64
  | float
  | double
  | string
  | bytes
  | enum
  | message
  | array
deriving DecidableEq

inductive PLabel where
  | required
  | optional
  | repeated
deriving DecidableEq

structure Reference where
  resource : String
  path : String
deriving DecidableEq

inductive Value where
  | int (n : Int)
  | str (s : String)
  | bool (b : Bool)
deriving DecidableEq

inductive Property where
  | mk (typ : PType) (label : PLabel) (defaultVal : Option Value)
      (reference : Option Reference) (nested : List (String × Property))

def Property.typ : Property → PType
  | .mk t _ _ _ _ => t

def Property.label : Property → PLabel
  | .mk _ l _ _ _ => l

def Property.defaultVal : Property → Option Value
  | .mk _ _ d _ _ => d

def Property.reference : Property → Option Reference
  | .mk _ _ _ r _ => r

def Property.nested : Property → List (String × Property)
  | .mk _ _ _ _ n => n

structure ParameterMap where
  header : List (String × Property)
  body : Option Property

/-- `specs.OnError`: fields are pointers in Go, hence `Option` here; the
`Params` map is an association list. -/
structure OnError where
  message : Option Property
  status : Option Property
  params : List (String × Property)
  response : Option ParameterMap

/-- `specs.Node` as used by the hcl error resolution and the manifest
checks: an identifier plus an optional `on_error` override. -/
structure Node where
  id : String
  onError : Option OnError

/-- `specs.Flow`.  Modelled from the spec: a Flow carries its nodes and
an `on_error` default object (the spec's data model lists `on_error
default` as a component of every flow), whose individual fields may be
unset. -/
structure Flow where
  name : String
  onError : OnError
  nodes : List Node

/-! ## pkg/providers/hcl/errors.go -/

/-- The `Status` property installed by `DefaultOnError`: an optional
int64 referencing `error:status`. -/
def defaultStatusProperty : Property :=
  .mk .int64 .optional none (some ⟨"error", "status"⟩) []

/-- The `Message` property installed by `DefaultOnError`: an optional
string referencing `error:message`. -/
def defaultMessageProperty : Property :=
  .mk .string .optional none (some ⟨"error", "message"⟩) []

/-- `DefaultOnError` (errors.go): fills the `Status` and `Message`
properties when they are not defined. -/
def DefaultOnError (err : OnError) : OnError :=
  let err1 :=
    match err.status with
    | none => { err with status := some defaultStatusProperty }
    | some _ => err
  match err1.message with
  | none => { err1 with message := some defaultMessageProperty }
  | some _ => err1

/-- `MergeOnError` (errors.go): merges the right on-error specs into the
left one; only fields of the left that are unset (or, for `Params`,
empty) are filled from the right.  `Clone` is the identity on this pure
data. -/
def MergeOnError (left right : OnError) : OnError :=
  let m1 :=
    match left.message with
    | none => { left with message := right.message }
    | some _ => left
  let m2 :=
    match m1.status with
    | none => { m1 with status := right.status }
    | some _ => m1
  let m3 :=
    match m2.params with
    | [] => { m2 with params := right.params }
    | _ :: _ => m2
  match m3.response with
  | none => { m3 with response := right.response }
  | some _ => m3

/-- The flow-level part of `ResolveErrors`: apply `DefaultOnError` and
fill the response from the global error parameter map. -/
def resolveFlowOnError (errMap : Option ParameterMap) (flow : Flow) : OnError :=
  let oe := DefaultOnError flow.onError
  match oe.response with
  | none => { oe with response := errMap }
  | some _ => oe

/-- The node-level part of `ResolveErrors`: a node without its own
`on_error` receives a clone of the flow default, otherwise the flow
default is merged underneath the override. -/
def resolveNode (oe : OnError) (node : Node) : Node :=
  match node.onError with
  | none => { node with onError := some oe }
  | some noe => { node with onError := some (MergeOnError noe oe) }

/-- `ResolveErrors` (errors.go): resolves the error objects of every
flow and every node. -/
def ResolveErrors (flows : List Flow) (errMap : Option ParameterMap) : List Flow :=
  flows.map fun flow =>
    let oe := resolveFlowOnError errMap flow
    { flow with onError := oe, nodes := flow.nodes.map (resolveNode oe) }

/-- The on-error object of node `j` of flow `i` after resolution. -/
def resolvedNodeOnError (flows : List Flow) (errMap : Option ParameterMap)
    (i j : Nat) : Option OnError :=
  match (ResolveErrors flows errMap)[i]? with
  | none => none
  | some fl =>
    match fl.nodes[j]? with
    | none => none
    | some n => n.onError

/-! ## Runtime error scope

Modelled from the spec: the reserved `error` resource of the store
carries the current error context; the error resolver computes the
status by template expansion with default `500` and the message with
default the underlying error's text.  The runtime population of that
scope is not part of the provided sources. -/

structure ErrScope where
  status : Int
  message : String

/-- Modelled from the spec: the error scope as populated when nothing
overrides it — status `500`, message the underlying error's text. -/
def defaultErrScope (errText : String) : ErrScope :=
  ⟨500, errText⟩

/-- Resolve a `(resource, path)` reference against the error scope. -/
def evalErrorRef (scope : ErrScope) (r : Reference) : Option Value :=
  match r.resource, r.path with
  | "error", "status" => some (.int scope.status)
  | "error", "message" => some (.str scope.message)
  | _, _ => none

/-- Resolve a property against the error scope: a referencing property
reads the scope, otherwise the default value applies. -/
def evalProperty (scope : ErrScope) (p : Property) : Option Value :=
  match p.reference with
  | some r => evalErrorRef scope r
  | none => p.defaultVal

/-- C1: for every flow whose `on_error` defines neither status nor
message, and every node of that flow without its own `on_error`
override, the resolved error object after `ResolveErrors` carries the
built-in defaults — the `error:status` and `error:message` references —
which resolve against the default runtime error scope to status `500`
and to the underlying error's text. -/
theorem resolveErrors_default_fallback
    (flows : List Flow) (errMap : Option ParameterMap) (i j : Nat)
    (flow : Flow) (node : Node) (errText : String)
    (hf : flows[i]? = some flow)
    (hs : flow.onError.status = none)
    (hm : flow.onError.message = none)
    (hn : flow.nodes[j]? = some node)
    (hno : node.onError = none) :
    (resolvedNodeOnError flows errMap i j).map OnError.status
        = some (some defaultStatusProperty) ∧
    (resolvedNodeOnError flows errMap i j).map OnError.message
        = some (some defaultMessageProperty) ∧
    evalProperty (defaultErrScope errText) defaultStatusProperty = some (.int 500) ∧
    evalProperty (defaultErrScope errText) defaultMessageProperty = some (.str errText) := by
  have hres : resolvedNodeOnError flows errMap i j
      = some (resolveFlowOnError errMap flow) := by
    unfold resolvedNodeOnError ResolveErrors
    rw [List.getElem?_map, hf]
    simp only [Option.map_some']
    rw [List.getElem?_map, hn]
    simp [resolveNode, hno]
  have hoe : (resolveFlowOnError errMap flow).status = some defaultStatusProperty ∧
      (resolveFlowOnError errMap flow).message = some defaultMessageProperty := by
    unfold resolveFlowOnError DefaultOnError
    rw [hs]
    simp only
    rw [hm]
    cases hr : flow.onError.response <;> simp [hr]
  refine ⟨?_, ?_, rfl, rfl⟩
  · rw [hres, Option.map_some', hoe.1]
  · rw [hres, Option.map_some', hoe.2]

def witFlowC1 : Flow := ⟨"f", ⟨none, none, [], none⟩, [⟨"n", none⟩]⟩

theorem resolveErrors_default_fallback_witness :
    (resolvedNodeOnError [witFlowC1] none 0 0).map OnError.status
        = some (some defaultStatusProperty) ∧
    (resolvedNodeOnError [witFlowC1] none 0 0).map OnError.message
        = some (some defaultMessageProperty) ∧
    evalProperty (defaultErrScope "boom") defaultStatusProperty = some (.int 500) ∧
    evalProperty (defaultErrScope "boom") defaultMessageProperty = some (.str "boom") :=
  resolveErrors_default_fallback [witFlowC1] none 0 0 witFlowC1 ⟨"n", none⟩ "boom"
    rfl rfl rfl rfl rfl

/-- C2: `MergeOnError` leaves every set field of the left (node-level)
on-error object unchanged and fills only the unset fields from the right
(flow-level) one; and `ResolveErrors` merges the flow default underneath
each node override via `MergeOnError`, so node-level settings win. -/
theorem mergeOnError_left_wins
    (l r : OnError)
    (flows : List Flow) (errMap : Option ParameterMap) (i j : Nat)
    (flow : Flow) (node : Node) (noe : OnError)
    (hf : flows[i]? = some flow)
    (hn : flow.nodes[j]? = some node)
    (hno : node.onError = some noe) :
    ((l.message.isSome = true → (MergeOnError l r).message = l.message) ∧
     (l.message = none → (MergeOnError l r).message = r.message) ∧
     (l.status.isSome = true → (MergeOnError l r).status = l.status) ∧
     (l.status = none → (MergeOnError l r).status = r.status) ∧
     (l.params ≠ [] → (MergeOnError l r).params = l.params) ∧
     (l.params = [] → (MergeOnError l r).params = r.params) ∧
     (l.response.isSome = true → (MergeOnError l r).response = l.response) ∧
     (l.response = none → (MergeOnError l r).response = r.response)) ∧
    resolvedNodeOnError flows errMap i j
      = some (MergeOnError noe (resolveFlowOnError errMap flow)) := by
  constructor
  · obtain ⟨msg, st, ps, resp⟩ := l
    cases msg <;> cases st <;> cases ps <;> cases resp <;> simp [MergeOnError]
  · unfold resolvedNodeOnError ResolveErrors
    rw [List.getElem?_map, hf]
    simp only [Option.map_some']
    rw [List.getElem?_map, hn]
    simp [resolveNode, hno]

def witNoeC2 : OnError := ⟨some defaultMessageProperty, none, [], none⟩

def witFlowC2 : Flow := ⟨"g", ⟨none, none, [], none⟩, [⟨"n2", some witNoeC2⟩]⟩

theorem mergeOnError_left_wins_witness :
    (MergeOnError witNoeC2 ⟨some defaultStatusProperty, some defaultStatusProperty, [], none⟩).message
        = some defaultMessageProperty ∧
    (MergeOnError witNoeC2 ⟨some defaultStatusProperty, some defaultStatusProperty, [], none⟩).status
        = some defaultStatusProperty ∧
    resolvedNodeOnError [witFlowC2] none 0 0
      = some (MergeOnError witNoeC2 (resolveFlowOnError none witFlowC2)) := by
  have h := mergeOnError_left_wins witNoeC2
    ⟨some defaultStatusProperty, some defaultStatusProperty, [], none⟩
    [witFlowC2] none 0 0 witFlowC2 ⟨"n2", some witNoeC2⟩ witNoeC2 rfl rfl rfl
  exact ⟨h.1.1 rfl, h.1.2.2.2.1 rfl, h.2⟩

/-! ## pkg/checks — manifest duplicate and reserved-keyword validation -/

/-- `checks.ReservedKeywords`: the reserved template resources. -/
def ReservedKeywords : List String := ["input", "error", "stack"]

/-- The errors produced by `FlowDuplicates` and `NodeDuplicates`
(`trace.New` messages, represented structurally). -/
inductive CheckErr where
  | duplicateFlow (name : String)
  | duplicateResource (id flowName : String)
  | reservedKeyword (id : String)
deriving DecidableEq

/-- The loop body of `NodeDuplicates`: `seen` is the set of ids already
stored in the `sync.Map` tracker.  Per node the duplicate check
(`LoadOrStore`) runs before the reserved-keyword scan. -/
def nodeDuplicatesGo (flowName : String) (seen : List String) :
    List Node → Option CheckErr
  | [] => none
  | n :: rest =>
    if n.id ∈ seen then some (.duplicateResource n.id flowName)
    else if n.id ∈ ReservedKeywords then some (.reservedKeyword n.id)
    else nodeDuplicatesGo flowName (n.id :: seen) rest

/-- `checks.NodeDuplicates`. -/
def NodeDuplicates (flowName : String) (nodes : List Node) : Option CheckErr :=
  nodeDuplicatesGo flowName [] nodes

/-- The loop body of `FlowDuplicates` with its flow-name tracker. -/
def flowDuplicatesGo (seen : List String) : List Flow → Option CheckErr
  | [] => none
  | f :: rest =>
    if f.name ∈ seen then some (.duplicateFlow f.name)
    else
      match NodeDuplicates f.name f.nodes with
      | some e => some e
      | none => flowDuplicatesGo (f.name :: seen) rest

/-- `checks.FlowDuplicates`. -/
def FlowDuplicates (flows : List Flow) : Option CheckErr :=
  flowDuplicatesGo [] flows

/-- Whether a check result is the reserved-keyword error. -/
def isReservedErr : Option CheckErr → Bool
  | some (.reservedKeyword _) => true
  | _ => false

theorem nodeDuplicatesGo_eq_none_iff (fn : String) (nodes : List Node) :
    ∀ seen : List String, nodeDuplicatesGo fn seen nodes = none ↔
      ((nodes.map Node.id).Nodup ∧ (∀ n ∈ nodes, n.id ∉ seen) ∧
        ∀ n ∈ nodes, n.id ∉ ReservedKeywords) := by
  induction nodes with
  | nil => intro seen; simp [nodeDuplicatesGo]
  | cons n rest ih =>
    intro seen
    by_cases h1 : n.id ∈ seen
    · simp only [nodeDuplicatesGo, if_pos h1]
      exact ⟨fun h => by simp at h,
        fun hr => absurd h1 (hr.2.1 n (List.mem_cons_self n rest))⟩
    · by_cases h2 : n.id ∈ ReservedKeywords
      · simp only [nodeDuplicatesGo, if_neg h1, if_pos h2]
        exact ⟨fun h => by simp at h,
          fun hr => absurd h2 (hr.2.2 n (List.mem_cons_self n rest))⟩
      · simp only [nodeDuplicatesGo, if_neg h1, if_neg h2]
        rw [ih (n.id :: seen)]
        constructor
        · rintro ⟨hnd, hseen, hres⟩
          have hne : ∀ m ∈ rest, ¬(m.id = n.id ∧ True) ∧ m.id ∉ seen := by
            intro m hm
            have := hseen m hm
            simp only [List.mem_cons, not_or] at this
            exact ⟨fun hc => this.1 hc.1, this.2⟩
          refine ⟨?_, ?_, ?_⟩
          · simp only [List.map_cons, List.nodup_cons]
            refine ⟨fun hmem => ?_, hnd⟩
            obtain ⟨m, hm, hid⟩ := List.mem_map.mp hmem
            exact (hne m hm).1 ⟨hid, trivial⟩
          · intro m hm
            rcases List.mem_cons.mp hm with h | h
            · subst h; exact h1
            · exact (hne m h).2
          · intro m hm
            rcases List.mem_cons.mp hm with h | h
            · subst h; exact h2
            · exact hres m h
        · rintro ⟨hnd, hseen, hres⟩
          simp only [List.map_cons, List.nodup_cons] at hnd
          refine ⟨hnd.2, ?_, fun m hm => hres m (List.mem_cons_of_mem _ hm)⟩
          intro m hm
          simp only [List.mem_cons, not_or]
          refine ⟨fun he => ?_, hseen m (List.mem_cons_of_mem _ hm)⟩
          exact hnd.1 (he ▸ List.mem_map_of_mem Node.id hm)

theorem flowDuplicatesGo_eq_none_iff (flows : List Flow) :
    ∀ seen : List String, flowDuplicatesGo seen flows = none ↔
      ((flows.map Flow.name).Nodup ∧ (∀ f ∈ flows, f.name ∉ seen) ∧
        ∀ f ∈ flows, NodeDuplicates f.name f.nodes = none) := by
  induction flows with
  | nil => intro seen; simp [flowDuplicatesGo]
  | cons f rest ih =>
    intro seen
    by_cases h1 : f.name ∈ seen
    · simp only [flowDuplicatesGo, if_pos h1]
      exact ⟨fun h => by simp at h,
        fun hr => absurd h1 (hr.2.1 f (List.mem_cons_self f rest))⟩
    · simp only [flowDuplicatesGo, if_neg h1]
      cases hd : NodeDuplicates f.name f.nodes with
      | some e =>
        refine ⟨fun h => by simp at h, fun hr => ?_⟩
        have := hr.2.2 f (List.mem_cons_self f rest)
        rw [hd] at this
        exact Option.noConfusion this
      | none =>
        rw [ih (f.name :: seen)]
        constructor
        · rintro ⟨hnd, hseen, hdup⟩
          have hne : ∀ g ∈ rest, g.name ≠ f.name ∧ g.name ∉ seen := by
            intro g hg
            have := hseen g hg
            simp only [List.mem_cons, not_or] at this
            exact this
          refine ⟨?_, ?_, ?_⟩
          · simp only [List.map_cons, List.nodup_cons]
            refine ⟨fun hmem => ?_, hnd⟩
            obtain ⟨g, hg, hid⟩ := List.mem_map.mp hmem
            exact (hne g hg).1 hid
          · intro g hg
            rcases List.mem_cons.mp hg with h | h
            · subst h; exact h1
            · exact (hne g h).2
          · intro g hg
            rcases List.mem_cons.mp hg with h | h
            · subst h; exact hd
            · exact hdup g h
        · rintro ⟨hnd, hseen, hdup⟩
          simp only [List.map_cons, List.nodup_cons] at hnd
          refine ⟨hnd.2, ?_, fun g hg => hdup g (List.mem_cons_of_mem _ hg)⟩
          intro g hg
          simp only [List.mem_cons, not_or]
          refine ⟨fun he => ?_, hseen g (List.mem_cons_of_mem _ hg)⟩
          exact hnd.1 (he ▸ List.mem_map_of_mem Flow.name hg)

theorem nodeDuplicatesGo_reserved_false (fn : String) (nodes : List Node) :
    ∀ seen : List String, (∀ n ∈ nodes, n.id ∉ ReservedKeywords) →
      isReservedErr (nodeDuplicatesGo fn seen nodes) = false := by
  induction nodes with
  | nil => intro seen _; rfl
  | cons n rest ih =>
    intro seen h
    by_cases h1 : n.id ∈ seen
    · simp [nodeDuplicatesGo, h1, isReservedErr]
    · have h2 : n.id ∉ ReservedKeywords := h n (List.mem_cons_self n rest)
      simp only [nodeDuplicatesGo, if_neg h1, if_neg h2]
      exact ih _ (fun m hm => h m (List.mem_cons_of_mem _ hm))

theorem flowDuplicatesGo_reserved_false (flows : List Flow) :
    ∀ seen : List String,
      (∀ f ∈ flows, ∀ n ∈ f.nodes, n.id ∉ ReservedKeywords) →
      isReservedErr (flowDuplicatesGo seen flows) = false := by
  induction flows with
  | nil => intro seen _; rfl
  | cons f rest ih =>
    intro seen h
    by_cases h1 : f.name ∈ seen
    · simp [flowDuplicatesGo, h1, isReservedErr]
    · simp only [flowDuplicatesGo, if_neg h1]
      cases hd : NodeDuplicates f.name f.nodes with
      | some e =>
        have hnode := nodeDuplicatesGo_reserved_false f.name f.nodes []
          (h f (List.mem_cons_self f rest))
        rw [NodeDuplicates] at hd
        rw [hd] at hnode
        exact hnode
      | none => exact ih _ (fun g hg => h g (List.mem_cons_of_mem _ hg))

def emptyOnError : OnError := ⟨none, none, [], none⟩

/-- C6 (counterexample): a manifest with all flow names distinct and all
node ids distinct per flow does NOT necessarily pass `FlowDuplicates`:
a single flow with the single node id `input` has no duplicates at all
yet the check fails (with the reserved-keyword error). -/
theorem flowDuplicates_distinct_cex :
    (List.map Flow.name [⟨"f", emptyOnError, [⟨"input", none⟩]⟩]).Nodup ∧
    (List.map Node.id [Node.mk "input" none]).Nodup ∧
    FlowDuplicates [⟨"f", emptyOnError, [⟨"input", none⟩]⟩]
      = some (.reservedKeyword "input") :=
  ⟨by decide, by decide, rfl⟩

/-- Shared characterization of a passing `FlowDuplicates` run. -/
theorem flowDuplicates_none_char (flows : List Flow) :
    FlowDuplicates flows = none ↔
      ((flows.map Flow.name).Nodup ∧
        ∀ f ∈ flows, (f.nodes.map Node.id).Nodup ∧
          ∀ n ∈ f.nodes, n.id ∉ ReservedKeywords) := by
  rw [FlowDuplicates, flowDuplicatesGo_eq_none_iff]
  constructor
  · rintro ⟨h1, -, h2⟩
    refine ⟨h1, fun f hf => ?_⟩
    have hn := (nodeDuplicatesGo_eq_none_iff f.name f.nodes []).mp (h2 f hf)
    exact ⟨hn.1, hn.2.2⟩
  · rintro ⟨h1, h2⟩
    refine ⟨h1, fun f _ => List.not_mem_nil f.name, fun f hf => ?_⟩
    exact (nodeDuplicatesGo_eq_none_iff f.name f.nodes []).mpr
      ⟨(h2 f hf).1, fun n _ => List.not_mem_nil n.id, (h2 f hf).2⟩

/-- C6 (amended): `FlowDuplicates` passes exactly when all flow names
are distinct, all node ids are distinct within each flow, and no node id
is a reserved keyword; hence it fails (with some `ErrManifest` error)
whenever two flows share a name or two nodes of one flow share an id. -/
theorem flowDuplicates_eq_none_iff (flows : List Flow) :
    FlowDuplicates flows = none ↔
      ((flows.map Flow.name).Nodup ∧
        ∀ f ∈ flows, (f.nodes.map Node.id).Nodup ∧
          ∀ n ∈ f.nodes, n.id ∉ ReservedKeywords) :=
  flowDuplicates_none_char flows

theorem flowDuplicates_eq_none_iff_witness :
    FlowDuplicates [⟨"a", emptyOnError, [⟨"x", none⟩, ⟨"y", none⟩]⟩] = none :=
  (flowDuplicates_eq_none_iff _).mpr (by decide)

/-- C7 (counterexample): a flow containing a node with the reserved id
`input` does not necessarily fail with a reserved-keyword error: when an
unrelated duplicate id precedes it, the duplicate error is returned
instead. -/
theorem reservedKeyword_cex :
    "input" ∈ List.map Node.id
      [Node.mk "a" none, Node.mk "a" none, Node.mk "input" none] ∧
    "input" ∈ ReservedKeywords ∧
    FlowDuplicates [⟨"g", emptyOnError,
        [⟨"a", none⟩, ⟨"a", none⟩, ⟨"input", none⟩]⟩]
      = some (.duplicateResource "a" "g") ∧
    isReservedErr (FlowDuplicates [⟨"g", emptyOnError,
        [⟨"a", none⟩, ⟨"a", none⟩, ⟨"input", none⟩]⟩]) = false :=
  ⟨by decide, by decide, rfl, rfl⟩

/-- C7 (amended): if any node id of any flow is one of the reserved
resources `input`, `error`, `stack`, loading fails (though the reported
error may be a duplicate error encountered earlier); and when no node id
is reserved, the reserved-keyword error is never produced. -/
theorem reservedKeyword_check (flows : List Flow) :
    ((∃ f ∈ flows, ∃ n ∈ f.nodes, n.id ∈ ReservedKeywords) →
        FlowDuplicates flows ≠ none) ∧
    ((∀ f ∈ flows, ∀ n ∈ f.nodes, n.id ∉ ReservedKeywords) →
        isReservedErr (FlowDuplicates flows) = false) := by
  constructor
  · rintro ⟨f, hf, n, hn, hres⟩ h
    rw [flowDuplicates_none_char] at h
    exact (h.2 f hf).2 n hn hres
  · intro h
    exact flowDuplicatesGo_reserved_false flows [] h

theorem reservedKeyword_check_witness :
    FlowDuplicates [⟨"h", emptyOnError, [⟨"stack", none⟩]⟩] ≠ none :=
  (reservedKeyword_check [⟨"h", emptyOnError, [⟨"stack", none⟩]⟩]).1
    ⟨⟨"h", emptyOnError, [⟨"stack", none⟩]⟩, by simp,
      ⟨"stack", none⟩, by simp, by decide⟩

/-! ## gRPC listener — routing table (`Listener.Handle`)

`ParseEndpointOptions` and `Method.NewCodec` are listener helpers whose
code is not among the provided sources; their results are therefore
carried as fields of the endpoint.  The protobuf service-descriptor
build (`proto.NewServiceDescriptor` + `file.Build`) is passed in as an
error-capable function. -/

/-- gRPC transport errors; `text` is the Go errors `Error()` string and
`cause` stands for the root cause obtained by `transport.Unwrap`. -/
structure GErr where
  text : String
  cause : String
deriving DecidableEq

/-- Result of `ParseEndpointOptions`: package, service and method name. -/
structure EndpointOptions where
  pkg : String
  service : String
  method : String
deriving DecidableEq

/-- A `transport.Endpoint` as seen by the gRPC listener, with the
results of the option parse and of the codec construction attached. -/
structure GEndpoint where
  flowName : String
  parse : Except GErr EndpointOptions
  newCodec : Except GErr Unit

/-- A routing-table `Method` entry (endpoint, fully qualified name and
bare method name). -/
structure MethodEntry where
  endpoint : GEndpoint
  fqn : String
  name : String

/-- A routing-table `Service` entry. -/
structure ServiceEntry where
  pkg : String
  name : String
  methods : List (String × MethodEntry)
  proto : Option String

/-- Association-list lookup, mirroring a Go map read. -/
def lookupA {α : Type} : List (String × α) → String → Option α
  | [], _ => none
  | (k, v) :: rest, key => if k = key then some v else lookupA rest key

/-- Association-list write, mirroring a Go map write (replace or add). -/
def upsert {α : Type} : List (String × α) → String → α → List (String × α)
  | [], key, v => [(key, v)]
  | (k, w) :: rest, key, v =>
    if k = key then (key, v) :: rest else (k, w) :: upsert rest key v

/-- The first loop of `Listener.Handle`: parse options, build the codec,
fill the `methods` and `services` tables. -/
def buildMethodTables : List GEndpoint → List (String × MethodEntry) →
    List (String × ServiceEntry) →
    Except GErr (List (String × MethodEntry) × List (String × ServiceEntry))
  | [], methods, services => .ok (methods, services)
  | ep :: rest, methods, services =>
    match ep.parse with
    | .error e => .error e
    | .ok options =>
      let service := options.pkg ++ "." ++ options.service
      let name := service ++ "/" ++ options.method
      match ep.newCodec with
      | .error e => .error e
      | .ok _ =>
        let m : MethodEntry := ⟨ep, name, options.method⟩
        let methods1 := upsert methods name m
        let services1 :=
          match lookupA services service with
          | none => upsert services service ⟨options.pkg, options.service, [(name, m)], none⟩
          | some svc => upsert services service { svc with methods := upsert svc.methods name m }
        buildMethodTables rest methods1 services1

/-- The second loop of `Listener.Handle`: build the protobuf service
descriptor of every service; `svcBuild` stands for the composition of
`proto.NewServiceDescriptor` and `file.Build`. -/
def buildServiceDescriptors (svcBuild : String → ServiceEntry → Except GErr String) :
    List (String × ServiceEntry) → Except GErr (List (String × ServiceEntry))
  | [] => .ok []
  | (key, svc) :: rest =>
    match svcBuild key svc with
    | .error e => .error e
    | .ok p =>
      match buildServiceDescriptors svcBuild rest with
      | .error e => .error e
      | .ok rest1 => .ok ((key, { svc with proto := some p }) :: rest1)

/-- The listener routing table (`listener.methods` / `listener.services`). -/
structure GTable where
  methods : List (String × MethodEntry)
  services : List (String × ServiceEntry)

/-- The routing table `Handle` derives from the given endpoints (the
whole fallible part of `Listener.Handle` before the locked swap). -/
def buildTable (svcBuild : String → ServiceEntry → Except GErr String)
    (endpoints : List GEndpoint) : Except GErr GTable :=
  match buildMethodTables endpoints [] [] with
  | .error e => .error e
  | .ok (methods, services) =>
    match buildServiceDescriptors svcBuild services with
    | .error e => .error e
    | .ok services1 => .ok ⟨methods, services1⟩

/-- `Listener.Handle`: on any error the previously installed table is
kept and the error returned; otherwise the table is swapped for the one
derived from the endpoints. -/
def Handle (svcBuild : String → ServiceEntry → Except GErr String)
    (table : GTable) (endpoints : List GEndpoint) : GTable × Option GErr :=
  match buildTable svcBuild endpoints with
  | .error e => (table, some e)
  | .ok t => (t, none)

/-- C3: if building any endpoint fails, `Handle` returns that error and
the previously installed routing table is unchanged; on success the
table is entirely replaced by the one derived from the endpoints, and
calling `Handle` twice with the same endpoints yields the same result as
calling it once. -/
theorem handle_replaces_table_atomically
    (svcBuild : String → ServiceEntry → Except GErr String)
    (table : GTable) (endpoints : List GEndpoint) :
    (∀ e, buildTable svcBuild endpoints = .error e →
        Handle svcBuild table endpoints = (table, some e)) ∧
    (∀ t, buildTable svcBuild endpoints = .ok t →
        Handle svcBuild table endpoints = (t, none)) ∧
    Handle svcBuild (Handle svcBuild table endpoints).fst endpoints
      = Handle svcBuild table endpoints := by
  refine ⟨fun e he => by simp [Handle, he], fun t ht => by simp [Handle, ht], ?_⟩
  cases h : buildTable svcBuild endpoints <;> simp [Handle, h]

def witGoodEndpoint : GEndpoint := ⟨"flow1", .ok ⟨"pkg", "Svc", "Get"⟩, .ok ()⟩

def witBadEndpoint : GEndpoint :=
  ⟨"flow2", .error ⟨"parse failure", "parse failure"⟩, .ok ()⟩

def witSvcBuild : String → ServiceEntry → Except GErr String :=
  fun _ _ => .ok "descriptor"

def witTable : GTable := ⟨[("old/m", ⟨witGoodEndpoint, "old/m", "m"⟩)], []⟩

theorem handle_replaces_table_atomically_witness :
    Handle witSvcBuild witTable [witBadEndpoint]
      = (witTable, some ⟨"parse failure", "parse failure"⟩) ∧
    Handle witSvcBuild (Handle witSvcBuild witTable [witGoodEndpoint]).fst
        [witGoodEndpoint]
      = Handle witSvcBuild witTable [witGoodEndpoint] :=
  ⟨(handle_replaces_table_atomically witSvcBuild witTable [witBadEndpoint]).1 _ rfl,
   (handle_replaces_table_atomically witSvcBuild witTable [witGoodEndpoint]).2.2⟩

/-! ## gRPC listener — request dispatch (`Listener.handler`)

The reference store is opaque to the dispatcher: it is created by the
flow, threaded through codec and flow calls, and consulted by the error
resolvers.  Flows, codecs and error objects are therefore carried as
functions over an abstract store value. -/

/-- An opaque per-invocation reference store token. -/
abbrev Store := Nat

/-- Incoming and outgoing metadata. -/
abbrev Meta := List (String × String)

/-- A wire payload (byte list). -/
abbrev Payload := List Nat

/-- A gRPC message frame. -/
structure Frame where
  payload : Payload

/-- `grpc/codes` status codes used by the listener. -/
inductive GCode where
  | ok
  | invalidArgument
  | unauthenticated
  | permissionDenied
  | notFound
  | deadlineExceeded
  | alreadyExists
  | resourceExhausted
  | internal
  | unimplemented
  | unavailable
  | unknown
deriving DecidableEq

/-- Modelled from the spec: `CodeFromStatus` maps the resolved integer
status to a gRPC code (2xx to OK, 400 InvalidArgument, 401
Unauthenticated, 403 PermissionDenied, 404 NotFound, 408
DeadlineExceeded, 409 AlreadyExists, 429 ResourceExhausted, 500
Internal, 501 Unimplemented, 503 Unavailable, 504 DeadlineExceeded, else
Unknown); the function itself is not among the provided sources. -/
def CodeFromStatus (status : Nat) : GCode :=
  if 200 ≤ status ∧ status ≤ 299 then .ok
  else if status = 400 then .invalidArgument
  else if status = 401 then .unauthenticated
  else if status = 403 then .permissionDenied
  else if status = 404 then .notFound
  else if status = 408 then .deadlineExceeded
  else if status = 409 then .alreadyExists
  else if status = 429 then .resourceExhausted
  else if status = 500 then .internal
  else if status = 501 then .unimplemented
  else if status = 503 then .unavailable
  else if status = 504 then .deadlineExceeded
  else .unknown

/-- A registered `transport.Errs` error object with its store-dependent
resolvers. -/
structure ErrObject where
  resolveMessage : Store → String
  resolveStatusCode : Store → Nat

/-- A flow as the dispatcher sees it: `NewStore` and `Do` (which mutates
the store and may fail). -/
structure FlowM where
  newStore : Store
  run : Store → Store × Option GErr

/-- The request side of a method (meta unmarshal plus body codec). -/
structure ReqHandler where
  metaUnmarshal : Meta → Store → Store
  unmarshal : Payload → Store → Except GErr Store

/-- The response side of a method (meta marshal plus body codec). -/
structure RespHandler where
  metaMarshal : Store → Meta
  marshal : Store → Except GErr Payload

/-- The endpoint data the dispatcher consults: the error objects keyed
by the unwrapped root cause. -/
structure DispEndpoint where
  errs : List (String × ErrObject)

/-- A routing-table method as used by `Listener.handler`. -/
structure DispMethod where
  endpoint : DispEndpoint
  fqn : String
  flow : FlowM
  request : Option ReqHandler
  response : Option RespHandler

/-- The per-request server stream: the fully qualified method from the
stream context, the received frame, the incoming metadata, and the
result of sending the response message. -/
structure StreamS where
  fqn : Option String
  recv : Except GErr Frame
  meta : Option Meta
  send : Payload → Option GErr

/-- What the handler returned: a gRPC error, the raw receive error
(returned unchanged by the Go code), or success. -/
inductive HRes where
  | grpcErr (code : GCode) (msg : String)
  | streamErr (e : GErr)
  | success (sent : Option Payload)

/-- The observable outcome of one `handler` invocation: the result plus
whether a store was created and whether the flow was executed. -/
structure HOutcome where
  res : HRes
  storeCreated : Bool
  flowExecuted : Bool

/-- Metadata unmarshalling step: applied only when the incoming context
carries metadata (Go lines 171-174). -/
def applyMeta (reqh : ReqHandler) (meta : Option Meta) (store : Store) : Store :=
  match meta with
  | some md => reqh.metaUnmarshal md store
  | none => store

/-- Request decoding (Go lines 170-180): the store starts as
`method.flow.NewStore()`; when the method has a request side, the
metadata and then the body are unmarshalled into it. -/
def decodeRequest (method : DispMethod) (stream : StreamS) (req : Frame) :
    Except GErr Store :=
  match method.request with
  | some reqh => reqh.unmarshal req.payload (applyMeta reqh stream.meta method.flow.newStore)
  | none => .ok method.flow.newStore

/-- The response encoding path of `handler` (Go lines 196-220), reached
when the flow succeeded. -/
def encodeResponse (method : DispMethod) (stream : StreamS) (store : Store) : HRes :=
  match method.response with
  | none => .success none
  | some resph =>
    match resph.marshal store with
    | .error e => .grpcErr .resourceExhausted ("invalid response body: " ++ e.text)
    | .ok bb =>
      match stream.send bb with
      | some e => .grpcErr .internal ("unknown error: " ++ e.text)
      | none => .success (some bb)

/-- Flow execution and error resolution (Go lines 182-194). -/
def runFlow (method : DispMethod) (stream : StreamS) (store : Store) : HRes :=
  match method.flow.run store with
  | (store1, some e) =>
    match lookupA method.endpoint.errs e.cause with
    | none => .grpcErr .internal e.text
    | some obj =>
      .grpcErr (CodeFromStatus (obj.resolveStatusCode store1)) (obj.resolveMessage store1)
  | (store1, none) => encodeResponse method stream store1

/-- `Listener.handler`: the unknown-service handler of the gRPC server. -/
def handler (methods : List (String × DispMethod)) (stream : StreamS) : HOutcome :=
  match stream.fqn with
  | none => ⟨.grpcErr .internal "low level server stream not exists in context", false, false⟩
  | some fqn =>
    match lookupA methods (fqn.drop 1) with
    | none => ⟨.grpcErr .unimplemented ("unknown method: " ++ fqn), false, false⟩
    | some method =>
      match stream.recv with
      | .error e => ⟨.streamErr e, false, false⟩
      | .ok req =>
        match decodeRequest method stream req with
        | .error e =>
          ⟨.grpcErr .resourceExhausted ("invalid message body: " ++ e.text), true, false⟩
        | .ok store => ⟨runFlow method stream store, true, true⟩

/-- C10: a request whose fully qualified method is not in the routing
table is answered with gRPC `Unimplemented`, without creating a store or
executing any flow. -/
theorem handler_unknown_method
    (methods : List (String × DispMethod)) (stream : StreamS) (fqn : String)
    (h1 : stream.fqn = some fqn)
    (h2 : lookupA methods (fqn.drop 1) = none) :
    handler methods stream
      = ⟨.grpcErr .unimplemented ("unknown method: " ++ fqn), false, false⟩ := by
  simp [handler, h1, h2]

def witStreamC10 : StreamS := ⟨some "/pkg.Svc/Get", .ok ⟨[]⟩, none, fun _ => none⟩

theorem handler_unknown_method_witness :
    handler [] witStreamC10
      = ⟨.grpcErr .unimplemented ("unknown method: " ++ "/pkg.Svc/Get"), false, false⟩ :=
  handler_unknown_method [] witStreamC10 "/pkg.Svc/Get" rfl rfl

/-- C4: a request whose body fails to unmarshal through the endpoint
request codec is answered with gRPC `ResourceExhausted` and the flow is
not executed. -/
theorem handler_bad_request_body
    (methods : List (String × DispMethod)) (stream : StreamS) (fqn : String)
    (method : DispMethod) (req : Frame) (reqh : ReqHandler) (e : GErr)
    (h1 : stream.fqn = some fqn)
    (h2 : lookupA methods (fqn.drop 1) = some method)
    (h3 : stream.recv = .ok req)
    (h4 : method.request = some reqh)
    (h5 : reqh.unmarshal req.payload (applyMeta reqh stream.meta method.flow.newStore)
        = .error e) :
    handler methods stream
      = ⟨.grpcErr .resourceExhausted ("invalid message body: " ++ e.text), true, false⟩ := by
  simp [handler, h1, h2, h3, decodeRequest, h4, h5]

def witMethodC4 : DispMethod :=
  ⟨⟨[]⟩, "pkg.Svc/Get", ⟨0, fun s => (s, none)⟩,
    some ⟨fun _ s => s, fun _ _ => .error ⟨"bad payload", "bad payload"⟩⟩, none⟩

def witStreamC4 : StreamS := ⟨some "/pkg.Svc/Get", .ok ⟨[7]⟩, none, fun _ => none⟩

theorem handler_bad_request_body_witness :
    handler [("pkg.Svc/Get", witMethodC4)] witStreamC4
      = ⟨.grpcErr .resourceExhausted ("invalid message body: " ++ "bad payload"),
          true, false⟩ := by
  exact handler_bad_request_body [("pkg.Svc/Get", witMethodC4)] witStreamC4
    "/pkg.Svc/Get" witMethodC4 ⟨[7]⟩
    ⟨fun _ s => s, fun _ _ => .error ⟨"bad payload", "bad payload"⟩⟩
    ⟨"bad payload", "bad payload"⟩ rfl rfl rfl rfl rfl

/-- C5: when flow execution fails, the dispatcher looks up the error
object registered for the unwrapped root cause; without one it returns
gRPC `Internal` with the error text, with one it returns the code
derived via `CodeFromStatus` from the status resolved against the store,
with the message resolved against the store. -/
theorem handler_flow_error
    (methods : List (String × DispMethod)) (stream : StreamS) (fqn : String)
    (method : DispMethod) (req : Frame) (store0 store1 : Store) (e : GErr)
    (h1 : stream.fqn = some fqn)
    (h2 : lookupA methods (fqn.drop 1) = some method)
    (h3 : stream.recv = .ok req)
    (h4 : decodeRequest method stream req = .ok store0)
    (h5 : method.flow.run store0 = (store1, some e)) :
    (lookupA method.endpoint.errs e.cause = none →
        handler methods stream = ⟨.grpcErr .internal e.text, true, true⟩) ∧
    (∀ obj, lookupA method.endpoint.errs e.cause = some obj →
        handler methods stream
          = ⟨.grpcErr (CodeFromStatus (obj.resolveStatusCode store1))
              (obj.resolveMessage store1), true, true⟩) := by
  constructor
  · intro hl
    simp [handler, h1, h2, h3, h4, runFlow, h5, hl]
  · intro obj hl
    simp [handler, h1, h2, h3, h4, runFlow, h5, hl]

def witObjC5 : ErrObject := ⟨fun _ => "todo item not found", fun _ => 404⟩

def witMethodC5 : DispMethod :=
  ⟨⟨[("cause", witObjC5)]⟩, "pkg.Svc/Get",
    ⟨0, fun s => (s, some ⟨"boom", "cause"⟩)⟩, none, none⟩

def witStreamC5 : StreamS := ⟨some "/pkg.Svc/Get", .ok ⟨[]⟩, none, fun _ => none⟩

theorem handler_flow_error_witness :
    handler [("pkg.Svc/Get", witMethodC5)] witStreamC5
      = ⟨.grpcErr .notFound "todo item not found", true, true⟩ := by
  exact (handler_flow_error [("pkg.Svc/Get", witMethodC5)] witStreamC5
    "/pkg.Svc/Get" witMethodC5 ⟨[]⟩ 0 0 ⟨"boom", "cause"⟩
    rfl rfl rfl rfl rfl).2 witObjC5 rfl

/-! ## constructor package — bootstrap of the flow managers

`FlowManager`, `Call`, `NewServiceCall`, `Request`, `Forward` and
`Listeners` from the constructor package.  The plug-in registries of the
`Options` bundle (schema store, callers, codecs, listeners) are string
keyed lookups; `Dial`, `strict.DefineCaller` and the codec constructor
`New` are fallible collaborators whose results are abstract, matching
their interface contracts.  Errors are the `trace.New` message
strings. -/

/-- A `schema.Service`: transport, codec and fully qualified name. -/
structure SvcSchema where
  name : String
  fqn : String
  transport : String
  codecName : String

/-- A `specs.Call` (service, method, request and response maps). -/
structure SCall where
  service : String
  method : String
  request : Option ParameterMap
  response : Option ParameterMap

/-- A `specs.Node` as the constructor consumes it. -/
structure SNode where
  name : String
  call : Option SCall
  rollback : Option SCall

/-- A `specs.Flow` as the constructor consumes it. -/
structure SFlow where
  name : String
  input : Option ParameterMap
  output : Option ParameterMap
  nodes : List SNode
  forward : Option SCall

/-- A manifest endpoint: listener name, options and flow name. -/
structure SEndpoint where
  listener : String
  options : List (String × String)
  flow : String

/-- The specs manifest (flows and endpoints). -/
structure SManifest where
  flows : List SFlow
  endpoints : List SEndpoint

/-- `Manifest.GetFlow`: the first flow carrying the given name. -/
def GetFlowList (flows : List SFlow) (name : String) : Option SFlow :=
  flows.find? fun f => f.name = name

/-- A dialled transport (its payload is irrelevant to the properties). -/
structure TransportC where
  id : String

/-- A transport constructor from the `Callers` collection. -/
structure CallerCtor where
  dial : SvcSchema → Except String TransportC

/-- A codec constructor from the `Codec` collection. -/
structure CodecCtor where
  new : String → Option ParameterMap → Except String Unit

/-- A constructed `transport.Forward`. -/
structure ForwardC where
  service : SvcSchema
  header : List (String × Property)

/-- A constructed `transport.Endpoint`. -/
structure TEndpointC where
  listener : String
  options : List (String × String)
  flowName : String
  request : Option ParameterMap
  response : Option ParameterMap
  forward : Option ForwardC

/-- A listener from the `Listeners` collection, with its `Handle`
result. -/
structure ListenerC where
  name : String
  handle : List TEndpointC → Option String

/-- The `Options` bundle: registries keyed by string plus the abstracted
`strict.DefineCaller` pass. -/
structure COptions where
  schema : String → Option SvcSchema
  callers : String → Option CallerCtor
  codecs : String → Option CodecCtor
  listeners : String → Option ListenerC
  defineCaller : SNode → Except String Unit

/-- `constructor.Request`: builds the codec manager (when a constructor
is given) and the metadata manager. -/
def RequestC (node : SNode) (ctor : Option CodecCtor) (params : Option ParameterMap) :
    Except String Unit :=
  match ctor with
  | some c =>
    match c.new node.name params with
    | .error e => .error e
    | .ok _ => .ok ()
  | none => .ok ()

/-- `constructor.NewServiceCall`. -/
def NewServiceCall (options : COptions) (node : SNode) (call : Option SCall) :
    Except String Unit :=
  match call with
  | none => .ok ()
  | some c =>
    if c.service = "" then
      .error ("invalid service name, no service name configured in " ++ node.name)
    else
      match options.schema c.service with
      | none => .error ("the service for " ++ c.service ++ " was not found in " ++ node.name)
      | some service =>
        match options.schema service.fqn with
        | none => .error ("service not found " ++ service.fqn)
        | some schema2 =>
          match options.callers service.transport with
          | none =>
            .error ("transport constructor not found " ++ service.transport
              ++ " for service " ++ service.name)
          | some ctor =>
            match ctor.dial schema2 with
            | .error e => .error e
            | .ok _ =>
              match options.defineCaller node with
              | .error e => .error e
              | .ok _ =>
                match options.codecs service.codecName with
                | none => .error ("codec not found " ++ service.codecName)
                | some codec =>
                  match RequestC node (some codec) c.request with
                  | .error e => .error e
                  | .ok _ =>
                    match RequestC node (some codec) c.response with
                    | .error e => .error e
                    | .ok _ => .ok ()

/-- `constructor.Call`: dispatches to `NewServiceCall` when the call
names a service, and otherwise builds a local call. -/
def CallC (options : COptions) (node : SNode) (call : Option SCall) :
    Except String Unit :=
  match call with
  | none => .ok ()
  | some c =>
    if c.service = "" then
      match RequestC node none c.request with
      | .error e => .error e
      | .ok _ =>
        match RequestC node none c.response with
        | .error e => .error e
        | .ok _ => .ok ()
    else NewServiceCall options node (some c)

/-- `constructor.Forward`. -/
def ForwardF (options : COptions) (call : Option SCall) :
    Except String (Option ForwardC) :=
  match call with
  | none => .ok none
  | some c =>
    match options.schema c.service with
    | none => .error ("the service for " ++ c.method ++ " was not found")
    | some service =>
      .ok (some ⟨service, match c.request with | some pm => pm.header | none => []⟩)

/-- One node of the `FlowManager` loop: the forward caller and the
rollback caller. -/
def buildNode (options : COptions) (node : SNode) : Except String Unit :=
  match CallC options node node.call with
  | .error e => .error e
  | .ok _ =>
    match CallC options node node.rollback with
    | .error e => .error e
    | .ok _ => .ok ()

def buildNodes (options : COptions) : List SNode → Except String Unit
  | [] => .ok ()
  | n :: rest =>
    match buildNode options n with
    | .error e => .error e
    | .ok _ => buildNodes options rest

/-- One endpoint of the `FlowManager` loop: when the manifest has no
flow of that name the slot stays nil, otherwise the nodes and the
forward target are constructed. -/
def buildEndpoint (flows : List SFlow) (options : COptions) (e : SEndpoint) :
    Except String (Option TEndpointC) :=
  match GetFlowList flows e.flow with
  | none => .ok none
  | some manager =>
    match buildNodes options manager.nodes with
    | .error err => .error err
    | .ok _ =>
      match ForwardF options manager.forward with
      | .error err => .error err
      | .ok fwd =>
        .ok (some ⟨e.listener, e.options, manager.name,
          manager.input, manager.output, fwd⟩)

def buildEndpoints (flows : List SFlow) (options : COptions) :
    List SEndpoint → Except String (List (Option TEndpointC))
  | [] => .ok []
  | e :: rest =>
    match buildEndpoint flows options e with
    | .error err => .error err
    | .ok slot =>
      match buildEndpoints flows options rest with
      | .error err => .error err
      | .ok slots => .ok (slot :: slots)

/-- Append an endpoint to its listener's collection (Go
`collections[endpoint.Listener] = append(...)`). -/
def appendGroup (acc : List (String × List TEndpointC)) (key : String)
    (ep : TEndpointC) : List (String × List TEndpointC) :=
  match acc with
  | [] => [(key, [ep])]
  | (k, l) :: rest =>
    if k = key then (k, l ++ [ep]) :: rest else (k, l) :: appendGroup rest key ep

/-- The first loop of `constructor.Listeners`: skip nil endpoints,
fail on an unknown listener, group the rest per listener. -/
def groupEndpoints (options : COptions) (acc : List (String × List TEndpointC)) :
    List (Option TEndpointC) → Except String (List (String × List TEndpointC))
  | [] => .ok acc
  | none :: rest => groupEndpoints options acc rest
  | some ep :: rest =>
    match options.listeners ep.listener with
    | none => .error ("unknown listener " ++ ep.listener)
    | some _ => groupEndpoints options (appendGroup acc ep.listener ep) rest

/-- The second loop of `constructor.Listeners`: hand each collection to
its listener's `Handle`.  The `none` lookup branch is unreachable since
the grouping loop already resolved every key. -/
def runHandles (options : COptions) :
    List (String × List TEndpointC) → Option String
  | [] => none
  | (key, collection) :: rest =>
    match options.listeners key with
    | none => runHandles options rest
    | some listener =>
      match listener.handle collection with
      | some e => some e
      | none => runHandles options rest

/-- `constructor.Listeners`. -/
def ListenersC (endpoints : List (Option TEndpointC)) (options : COptions) :
    Option String :=
  match groupEndpoints options [] endpoints with
  | .error e => some e
  | .ok collections => runHandles options collections

/-- `constructor.FlowManager`: builds every endpoint slot and then wires
the listeners. -/
def FlowManager (manifest : SManifest) (options : COptions) :
    Except String (List (Option TEndpointC)) :=
  match buildEndpoints manifest.flows options manifest.endpoints with
  | .error e => .error e
  | .ok endpoints =>
    match ListenersC endpoints options with
    | some e => .error e
    | none => .ok endpoints

/-- Whether a constructor step failed. -/
def isErrorE {α : Type} : Except String α → Bool
  | .error _ => true
  | .ok _ => false

/-- Insert a nil slot at the given position. -/
def insertNoneAt : Nat → List (Option TEndpointC) → List (Option TEndpointC)
  | 0, l => none :: l
  | _ + 1, [] => [none]
  | n + 1, x :: l => x :: insertNoneAt n l

theorem buildEndpoint_unknown_flow (flows : List SFlow) (options : COptions)
    (e : SEndpoint) (he : GetFlowList flows e.flow = none) :
    buildEndpoint flows options e = .ok none := by
  simp [buildEndpoint, he]

theorem buildEndpoints_skip (flows : List SFlow) (options : COptions)
    (e : SEndpoint) (he : GetFlowList flows e.flow = none) :
    ∀ l1 l2 : List SEndpoint,
      buildEndpoints flows options (l1 ++ e :: l2)
        = (buildEndpoints flows options (l1 ++ l2)).map (insertNoneAt l1.length) := by
  intro l1
  induction l1 with
  | nil =>
    intro l2
    simp only [List.nil_append, List.length_nil]
    cases h : buildEndpoints flows options l2 with
    | error err =>
      simp [buildEndpoints, buildEndpoint_unknown_flow flows options e he, h, Except.map]
    | ok slots =>
      simp [buildEndpoints, buildEndpoint_unknown_flow flows options e he, h,
        insertNoneAt, Except.map]
  | cons x l1 ih =>
    intro l2
    simp only [List.cons_append, List.length_cons]
    cases hx : buildEndpoint flows options x with
    | error err => simp [buildEndpoints, hx, Except.map]
    | ok slot =>
      simp only [buildEndpoints, hx]
      rw [ih l2]
      cases h : buildEndpoints flows options (l1 ++ l2) with
      | error err => simp [Except.map]
      | ok slots => simp [insertNoneAt, Except.map]

theorem groupEndpoints_insert_none (options : COptions) (n : Nat) :
    ∀ (slots : List (Option TEndpointC)) (acc : List (String × List TEndpointC)),
      groupEndpoints options acc (insertNoneAt n slots)
        = groupEndpoints options acc slots := by
  induction n with
  | zero => intro slots acc; rfl
  | succ n ih =>
    intro slots acc
    cases slots with
    | nil => rfl
    | cons x rest =>
      cases x with
      | none =>
        show groupEndpoints options acc (insertNoneAt n rest)
          = groupEndpoints options acc rest
        exact ih rest acc
      | some ep =>
        simp only [insertNoneAt, groupEndpoints]
        cases options.listeners ep.listener with
        | none => rfl
        | some l => exact ih rest _

theorem listenersC_insert_none (options : COptions) (n : Nat)
    (slots : List (Option TEndpointC)) :
    ListenersC (insertNoneAt n slots) options = ListenersC slots options := by
  unfold ListenersC
  rw [groupEndpoints_insert_none]

/-- C9: an endpoint whose flow name matches no flow in the manifest does
not make `FlowManager` fail: its slot is left nil and `Listeners` skips
nil entries, so the bootstrap behaves exactly as if the endpoint were
absent, with one extra nil slot in the result. -/
theorem flowManager_drops_unknown_flow
    (flows : List SFlow) (options : COptions) (l1 l2 : List SEndpoint)
    (e : SEndpoint) (he : GetFlowList flows e.flow = none) :
    buildEndpoint flows options e = .ok none ∧
    FlowManager ⟨flows, l1 ++ e :: l2⟩ options
      = (FlowManager ⟨flows, l1 ++ l2⟩ options).map (insertNoneAt l1.length) := by
  refine ⟨buildEndpoint_unknown_flow flows options e he, ?_⟩
  unfold FlowManager
  rw [buildEndpoints_skip flows options e he l1 l2]
  cases h : buildEndpoints flows options (l1 ++ l2) with
  | error err => simp [Except.map]
  | ok slots =>
    simp only [Except.map]
    rw [listenersC_insert_none]
    cases hl : ListenersC slots options <;> simp [Except.map]

def witOptionsC9 : COptions :=
  ⟨fun _ => none, fun _ => none, fun _ => none, fun _ => none, fun _ => .ok ()⟩

theorem flowManager_drops_unknown_flow_witness :
    buildEndpoint [] witOptionsC9 ⟨"grpc", [], "missing"⟩ = .ok none ∧
    FlowManager ⟨[], [⟨"grpc", [], "missing"⟩]⟩ witOptionsC9
      = (FlowManager ⟨[], []⟩ witOptionsC9).map (insertNoneAt 0) :=
  flowManager_drops_unknown_flow [] witOptionsC9 [] [] ⟨"grpc", [], "missing"⟩ rfl

theorem newServiceCall_error_transport (options : COptions) (node : SNode)
    (c : SCall) (svc : SvcSchema)
    (hs : ¬c.service = "")
    (h1 : options.schema c.service = some svc)
    (h2 : options.callers svc.transport = none) :
    isErrorE (NewServiceCall options node (some c)) = true := by
  cases h3 : options.schema svc.fqn with
  | none => simp [NewServiceCall, hs, h1, h3, isErrorE]
  | some schema2 => simp [NewServiceCall, hs, h1, h3, h2, isErrorE]

theorem newServiceCall_error_codec (options : COptions) (node : SNode)
    (c : SCall) (svc : SvcSchema)
    (hs : ¬c.service = "")
    (h1 : options.schema c.service = some svc)
    (h2 : options.codecs svc.codecName = none) :
    isErrorE (NewServiceCall options node (some c)) = true := by
  cases h3 : options.schema svc.fqn with
  | none => simp [NewServiceCall, hs, h1, h3, isErrorE]
  | some schema2 =>
    cases h4 : options.callers svc.transport with
    | none => simp [NewServiceCall, hs, h1, h3, h4, isErrorE]
    | some ctor =>
      cases h5 : ctor.dial schema2 with
      | error e => simp [NewServiceCall, hs, h1, h3, h4, h5, isErrorE]
      | ok t =>
        cases h6 : options.defineCaller node with
        | error e => simp [NewServiceCall, hs, h1, h3, h4, h5, h6, isErrorE]
        | ok u => simp [NewServiceCall, hs, h1, h3, h4, h5, h6, h2, isErrorE]

theorem callC_service (options : COptions) (node : SNode) (c : SCall)
    (hs : ¬c.service = "") :
    CallC options node (some c) = NewServiceCall options node (some c) := by
  simp [CallC, hs]

theorem buildNode_error_call (options : COptions) (n : SNode)
    (h : isErrorE (CallC options n n.call) = true) :
    isErrorE (buildNode options n) = true := by
  unfold buildNode
  cases hc : CallC options n n.call with
  | error e => rfl
  | ok u => rw [hc] at h; simp [isErrorE] at h

theorem buildNodes_error_mem (options : COptions) (nodes : List SNode) (n : SNode)
    (hm : n ∈ nodes) (h : isErrorE (buildNode options n) = true) :
    isErrorE (buildNodes options nodes) = true := by
  induction nodes with
  | nil => cases hm
  | cons x rest ih =>
    cases hx : buildNode options x with
    | error e => simp [buildNodes, hx, isErrorE]
    | ok u =>
      rcases List.mem_cons.mp hm with h1 | h1
      · subst h1; rw [hx] at h; simp [isErrorE] at h
      · simp only [buildNodes, hx]
        exact ih h1

theorem buildEndpoint_error_nodes (flows : List SFlow) (options : COptions)
    (e : SEndpoint) (manager : SFlow)
    (hf : GetFlowList flows e.flow = some manager)
    (h : isErrorE (buildNodes options manager.nodes) = true) :
    isErrorE (buildEndpoint flows options e) = true := by
  cases hn : buildNodes options manager.nodes with
  | error err => simp [buildEndpoint, hf, hn, isErrorE]
  | ok u => rw [hn] at h; simp [isErrorE] at h

theorem buildEndpoints_error_mem (flows : List SFlow) (options : COptions)
    (eps : List SEndpoint) (e : SEndpoint)
    (hm : e ∈ eps) (h : isErrorE (buildEndpoint flows options e) = true) :
    isErrorE (buildEndpoints flows options eps) = true := by
  induction eps with
  | nil => cases hm
  | cons x rest ih =>
    cases hx : buildEndpoint flows options x with
    | error err => simp [buildEndpoints, hx, isErrorE]
    | ok slot =>
      rcases List.mem_cons.mp hm with h1 | h1
      · subst h1; rw [hx] at h; simp [isErrorE] at h
      · simp only [buildEndpoints, hx]
        cases hr : buildEndpoints flows options rest with
        | error err => rfl
        | ok slots =>
          have := ih h1
          rw [hr] at this
          simp [isErrorE] at this

theorem buildEndpoints_ok_mem (flows : List SFlow) (options : COptions)
    (e : SEndpoint) (manager : SFlow)
    (hf : GetFlowList flows e.flow = some manager) :
    ∀ (eps : List SEndpoint) (slots : List (Option TEndpointC)),
      buildEndpoints flows options eps = .ok slots → e ∈ eps →
      ∃ te, some te ∈ slots ∧ te.listener = e.listener := by
  intro eps
  induction eps with
  | nil => intro slots _ hm; cases hm
  | cons x rest ih =>
    intro slots hok hm
    cases hx : buildEndpoint flows options x with
    | error err => simp [buildEndpoints, hx] at hok
    | ok slot =>
      cases hr : buildEndpoints flows options rest with
      | error err => simp [buildEndpoints, hx, hr] at hok
      | ok slots2 =>
        simp only [buildEndpoints, hx, hr] at hok
        injection hok with hs2
        subst hs2
        rcases List.mem_cons.mp hm with h1 | h1
        · subst h1
          simp only [buildEndpoint, hf] at hx
          cases hn : buildNodes options manager.nodes with
          | error err => simp only [hn] at hx; exact Except.noConfusion hx
          | ok u =>
            simp only [hn] at hx
            cases hfw : ForwardF options manager.forward with
            | error err => simp only [hfw] at hx; exact Except.noConfusion hx
            | ok fwd =>
              simp only [hfw] at hx
              injection hx with hslot
              refine ⟨⟨e.listener, e.options, manager.name, manager.input,
                manager.output, fwd⟩, ?_, rfl⟩
              rw [← hslot]
              exact List.mem_cons_self _ _
        · obtain ⟨te, hte, hl⟩ := ih slots2 hr h1
          exact ⟨te, List.mem_cons_of_mem _ hte, hl⟩

theorem groupEndpoints_error_mem (options : COptions) (te : TEndpointC)
    (hl : options.listeners te.listener = none) :
    ∀ (slots : List (Option TEndpointC)) (acc : List (String × List TEndpointC)),
      some te ∈ slots → isErrorE (groupEndpoints options acc slots) = true := by
  intro slots
  induction slots with
  | nil => intro acc hm; cases hm
  | cons x rest ih =>
    intro acc hm
    cases x with
    | none =>
      rcases List.mem_cons.mp hm with h1 | h1
      · exact Option.noConfusion h1
      · exact ih acc h1
    | some ep =>
      rcases List.mem_cons.mp hm with h1 | h1
      · injection h1 with h1
        subst h1
        simp [groupEndpoints, hl, isErrorE]
      · cases hle : options.listeners ep.listener with
        | none => simp [groupEndpoints, hle, isErrorE]
        | some l =>
          simp only [groupEndpoints, hle]
          exact ih _ h1

theorem listenersC_some_mem (options : COptions) (te : TEndpointC)
    (slots : List (Option TEndpointC))
    (hl : options.listeners te.listener = none)
    (hm : some te ∈ slots) :
    (ListenersC slots options).isSome = true := by
  unfold ListenersC
  cases hg : groupEndpoints options [] slots with
  | error e => rfl
  | ok cols =>
    have := groupEndpoints_error_mem options te hl slots [] hm
    rw [hg] at this
    simp [isErrorE] at this

theorem flowManager_error_of_buildEndpoints (manifest : SManifest)
    (options : COptions)
    (h : isErrorE (buildEndpoints manifest.flows options manifest.endpoints) = true) :
    isErrorE (FlowManager manifest options) = true := by
  unfold FlowManager
  cases hb : buildEndpoints manifest.flows options manifest.endpoints with
  | error e => rfl
  | ok slots => rw [hb] at h; simp [isErrorE] at h

/-- C8 (counterexample): an endpoint that names a listener absent from
the configured collection does NOT necessarily make the construction
fail: when its flow name also matches no flow, the endpoint is dropped
(nil slot) before the listener lookup, and `FlowManager` succeeds. -/
theorem flowManager_unknown_listener_cex :
    (COptions.mk (fun _ => none) (fun _ => none) (fun _ => none) (fun _ => none)
        (fun _ => .ok ())).listeners "unknown" = none ∧
    FlowManager ⟨[], [⟨"unknown", [], "nope"⟩]⟩
        (COptions.mk (fun _ => none) (fun _ => none) (fun _ => none) (fun _ => none)
          (fun _ => .ok ()))
      = .ok [none] :=
  ⟨rfl, rfl⟩

/-- C8 (amended): the construction of the flow managers fails whenever
an endpoint bound to a flow that exists in the manifest names a listener
absent from the configured collection, or whenever a node of such a flow
has a service call whose service schema resolves but whose transport
constructor or codec is absent from the configured collections. -/
theorem flowManager_unknown_plugin_errors (manifest : SManifest) (options : COptions) :
    (∀ e ∈ manifest.endpoints, ∀ manager,
        GetFlowList manifest.flows e.flow = some manager →
        options.listeners e.listener = none →
        isErrorE (FlowManager manifest options) = true) ∧
    (∀ e ∈ manifest.endpoints, ∀ manager,
        GetFlowList manifest.flows e.flow = some manager →
        ∀ n ∈ manager.nodes, ∀ c, n.call = some c → ¬c.service = "" →
        ∀ svc, options.schema c.service = some svc →
        options.callers svc.transport = none →
        isErrorE (FlowManager manifest options) = true) ∧
    (∀ e ∈ manifest.endpoints, ∀ manager,
        GetFlowList manifest.flows e.flow = some manager →
        ∀ n ∈ manager.nodes, ∀ c, n.call = some c → ¬c.service = "" →
        ∀ svc, options.schema c.service = some svc →
        options.codecs svc.codecName = none →
        isErrorE (FlowManager manifest options) = true) := by
  refine ⟨?_, ?_, ?_⟩
  · intro e he manager hf hl
    cases hb : buildEndpoints manifest.flows options manifest.endpoints with
    | error err =>
      apply flowManager_error_of_buildEndpoints
      rw [hb]
      rfl
    | ok slots =>
      obtain ⟨te, hte, hlis⟩ :=
        buildEndpoints_ok_mem manifest.flows options e manager hf
          manifest.endpoints slots hb he
      have hsome := listenersC_some_mem options te slots (by rw [hlis]; exact hl) hte
      unfold FlowManager
      rw [hb]
      cases hLC : ListenersC slots options with
      | none => rw [hLC] at hsome; simp at hsome
      | some err => simp [hLC, isErrorE]
  · intro e he manager hf n hn c hc hsvc svc hschema htrans
    apply flowManager_error_of_buildEndpoints
    apply buildEndpoints_error_mem manifest.flows options manifest.endpoints e he
    apply buildEndpoint_error_nodes manifest.flows options e manager hf
    apply buildNodes_error_mem options manager.nodes n hn
    apply buildNode_error_call
    rw [hc, callC_service options n c hsvc]
    exact newServiceCall_error_transport options n c svc hsvc hschema htrans
  · intro e he manager hf n hn c hc hsvc svc hschema hcodec
    apply flowManager_error_of_buildEndpoints
    apply buildEndpoints_error_mem manifest.flows options manifest.endpoints e he
    apply buildEndpoint_error_nodes manifest.flows options e manager hf
    apply buildNodes_error_mem options manager.nodes n hn
    apply buildNode_error_call
    rw [hc, callC_service options n c hsvc]
    exact newServiceCall_error_codec options n c svc hsvc hschema hcodec

def witFlowC8 : SFlow := ⟨"f", none, none, [], none⟩

def witManifestC8 : SManifest := ⟨[witFlowC8], [⟨"grpc", [], "f"⟩]⟩

def witOptionsC8 : COptions :=
  ⟨fun _ => none, fun _ => none, fun _ => none, fun _ => none, fun _ => .ok ()⟩

theorem flowManager_unknown_plugin_errors_witness :
    isErrorE (FlowManager witManifestC8 witOptionsC8) = true :=
  (flowManager_unknown_plugin_errors witManifestC8 witOptionsC8).1
    ⟨"grpc", [], "f"⟩ (by simp [witManifestC8]) witFlowC8 rfl rfl

end Semaphore
